import Mathlib

/-!
Shallow embedding, in Lean 4, of the core of the `grait_trade_bot`
repository: the trend classifiers (`trends.py`, `stream_trader.py`), the
bounded indicator series (`indicators.py`), the file tailer
(`file_stream.py`) and the per-symbol trading engine
(`src/common/trading_engine.py`).  Prices, moving averages and PnL values
are Python floats in the source; they are embedded as rationals (`ℚ`),
which is faithful for every comparison and exact arithmetic operation the
code performs.  Timestamps (second resolution) are embedded as `ℕ`.
-/

namespace GraitBot

/-! ## Trend classification (`trends.py`) -/

/-- One parsed indicator record: the fields of `ParsedAlert` /
the `rec` dictionary that the trend functions read. -/
structure Rec where
  price : ℚ
  sma20 : ℚ
  ema20 : ℚ
  ema9 : ℚ
  deriving DecidableEq, Repr

/-- Source `trends.is_downtrend`: `rec["sma20"] > rec["ema20"] > rec["ema9"]`
(Python chained comparison). -/
def is_downtrend (rec : Rec) : Bool :=
  rec.sma20 > rec.ema20 && rec.ema20 > rec.ema9

/-- Source `trends.is_uptrend`: `rec["sma20"] < rec["ema20"] < rec["ema9"]`. -/
def is_uptrend (rec : Rec) : Bool :=
  rec.sma20 < rec.ema20 && rec.ema20 < rec.ema9

/-- Source `trends.trend_of`: `"UP"` when `is_uptrend`, else `"DOWN"` when
`is_downtrend`, else `None` (the spec's NEUTRAL). -/
def trend_of (rec : Rec) : Option String :=
  if is_uptrend rec then some "UP"
  else if is_downtrend rec then some "DOWN"
  else none

/-- Source `stream_trader.derive_trend(price, ema9, ema20, sma20)`:
`"uptrend"` when `ema9 > ema20 > sma20 and price >= ema9`, `"downtrend"`
when `ema9 < ema20 < sma20 and price <= ema9`, else `"neutral"`. -/
def derive_trend (price ema9 ema20 sma20 : ℚ) : String :=
  if ema9 > ema20 && ema20 > sma20 && price ≥ ema9 then "uptrend"
  else if ema9 < ema20 && ema20 < sma20 && price ≤ ema9 then "downtrend"
  else "neutral"

/-! ## Bounded indicator series (`indicators.py`) -/

/-- A Python `collections.deque(maxlen = cap)` holding the values of one
series: appending to a full deque evicts from the left. -/
structure BoundedDeque (α : Type) where
  cap : ℕ
  data : List α
  deriving Repr

/-- Python `deque.append`: push on the right; when the new length would exceed
`cap`, drop from the left down to `cap` elements. -/
def BoundedDeque.push {α : Type} (d : BoundedDeque α) (v : α) : BoundedDeque α :=
  let l := d.data ++ [v]
  { d with data := if l.length ≤ d.cap then l else l.drop (l.length - d.cap) }

/-- The `IndicatorSeries` dataclass.  Its `maxlen` field defaults to 200, but
the `values` / `timestamps` default factories build
`deque(maxlen=200)` with the literal 200 — they do NOT read the `maxlen`
field, so `IndicatorSeries(maxlen=2048)` still gets deques capped at
200.  The embedding keeps both numbers so this behaviour is preserved. -/
structure IndicatorSeries where
  maxlen : ℕ
  values : BoundedDeque ℚ
  timestamps : BoundedDeque ℕ
  deriving Repr

/-- Constructor `IndicatorSeries(maxlen = m)`: the dataclass constructor; the deque
capacities come from the default factories' literal 200, not from `m`. -/
def IndicatorSeries.mk0 (m : ℕ) : IndicatorSeries :=
  { maxlen := m, values := ⟨200, []⟩, timestamps := ⟨200, []⟩ }

/-- Method `IndicatorSeries.update(value, ts)`: append to both deques. -/
def IndicatorSeries.update (s : IndicatorSeries) (v : ℚ) (ts : ℕ) : IndicatorSeries :=
  { s with values := s.values.push v, timestamps := s.timestamps.push ts }

/-- Method `IndicatorSeries.current()`: `values[-1]` if non-empty else `None`. -/
def IndicatorSeries.current (s : IndicatorSeries) : Option ℚ :=
  s.values.data.getLast?

/-- Method `IndicatorSeries.prev(n)`: `None` when `n <= 0 or n > len(values)`,
else `list(values)[-n]` — the element at index `len - n`. -/
def IndicatorSeries.prev (s : IndicatorSeries) (n : ℤ) : Option ℚ :=
  if n ≤ 0 ∨ n > (s.values.data.length : ℤ) then none
  else s.values.data.get? (s.values.data.length - n.toNat)

/-- Method `IndicatorSeries.last_n(n)`: `[]` when `n <= 0`, else
`list(values)[-n:]` — the up-to-`n` most recent values, oldest first
(a slice `l[-n:]` with `n ≥ len` is the whole list). -/
def IndicatorSeries.last_n (s : IndicatorSeries) (n : ℤ) : List ℚ :=
  if n ≤ 0 then []
  else s.values.data.drop (s.values.data.length - n.toNat)

/-- The `Indicator` dataclass: four series, each built as
`IndicatorSeries(maxlen=2048)`. -/
structure Indicator where
  price : IndicatorSeries
  sma20 : IndicatorSeries
  ema20 : IndicatorSeries
  ema9 : IndicatorSeries

/-- The `Indicator` default factories. -/
def Indicator.mk0 : Indicator :=
  { price := IndicatorSeries.mk0 2048, sma20 := IndicatorSeries.mk0 2048,
    ema20 := IndicatorSeries.mk0 2048, ema9 := IndicatorSeries.mk0 2048 }

/-- Apply `update` with values `0, 1, …, n-1` (timestamps likewise),
starting from a given series: `n` consecutive appends. -/
def IndicatorSeries.updates (s : IndicatorSeries) : ℕ → IndicatorSeries
  | 0 => s
  | n + 1 => (s.updates n).update (n : ℚ) n

/-! ## File tailer (`file_stream.py`)

`FileTailer.follow` keeps a byte cursor `_pos` and a dedup watermark
`_last_ts` per source.  The embedding models the file at line
granularity: the file's content is the list of per-line parse results of
`parse_alert_line` (`none` for an unparsable line), the cursor counts
lines (each complete line one unit), and `size` is the line count.  This
preserves every size/cursor comparison the code makes. -/

/-- A parsed alert (`alert_parser.ParsedAlert`) as the tailer uses it:
the `symbol` and `ts` fields drive filtering and dedup; the indicator
payload and alert id ride along. -/
structure Alert where
  symbol : String
  payload : Rec
  ts : ℕ
  alert_id : ℕ
  deriving DecidableEq, Repr

/-- The tailer's mutable cursor: `_pos` (read offset) and `_last_ts`
(timestamp of the last emitted record, `None` before any emission). -/
structure TailerState where
  pos : ℕ
  last_ts : Option ℕ
  deriving DecidableEq, Repr

/-- The dedup test `self._last_ts is None or alert.ts > self._last_ts`. -/
def tsFresh (w : Option ℕ) (t : ℕ) : Bool :=
  match w with
  | none => true
  | some u => t > u

/-- One iteration of the `for line in f` loop of `FileTailer.follow`:
an unparsable line yields nothing; a record of a different symbol yields
nothing; a record of the tailer's symbol is emitted exactly when its
timestamp passes the dedup test, which then advances the watermark. -/
def lineStep (sym : String) (st : Option ℕ × List Alert) (line : Option Alert) :
    Option ℕ × List Alert :=
  match line with
  | none => st
  | some alert =>
    if alert.symbol = sym then
      if tsFresh st.1 alert.ts then (some alert.ts, st.2 ++ [alert]) else st
    else st

/-- The whole `for line in f` loop over the newly read lines. -/
def readLines (sym : String) (w : Option ℕ) (lines : List (Option Alert)) :
    Option ℕ × List Alert :=
  lines.foldl (lineStep sym) (w, [])

/-- One poll tick of `FileTailer.follow`: read the size; if
`size < _pos` reset the cursor to 0 (truncation/rotation); if
`size > _pos` read the lines from the cursor to EOF, process each, and
advance the cursor to EOF (`f.tell()`); otherwise do nothing. -/
def pollTick (sym : String) (file : List (Option Alert)) (st : TailerState) :
    TailerState × List Alert :=
  let st1 := if file.length < st.pos then { st with pos := 0 } else st
  if file.length > st1.pos then
    let r := readLines sym st1.last_ts (file.drop st1.pos)
    ({ pos := file.length, last_ts := r.1 }, r.2)
  else (st1, [])

/-- Keep exactly the lines that parse to a record of the given symbol. -/
def keepsSymbol (sym : String) (line : Option Alert) : Bool :=
  match line with
  | none => false
  | some a => a.symbol = sym

/-! ## Trading engine (`src/common/trading_engine.py`)

`TradingEngine.evaluate_trade` and `TradingEngine.run` are among the
sources; the modules they call — `src/common/symbol_info.py`
(`SymbolInfoManager`), `src/common/price_tracker.py`
(`FilePriceTracker`) and `src/common/webhooks.py`
(`send_trade_alert_by_sentiment`) — are not.  The engine's own control
flow below is direct from the source; each missing callee is modelled
from the spec where noted. -/

/-- The per-symbol state of `SymbolInfoManager`: exactly the fields
`evaluate_trade` reads and writes (spec §3, `SymbolState`). -/
structure SymbolInfo where
  realized_pnl : ℚ
  unrealized_pnl : ℚ
  is_blocked : Bool
  last_trade_side : String
  expected_trade_side : String
  trade_count : ℕ
  last_trade_price : ℚ
  current_price : ℚ
  trade_quantity : ℕ
  deriving DecidableEq, Repr

/-- One trade-intent signal handed to `send_trade_alert_by_sentiment`
(the exit call passes no sentiment and no quantity). -/
structure Signal where
  action : String
  sentiment : Option String
  quantity : Option ℕ
  deriving DecidableEq, Repr

/-- Observable events of one evaluation, in program order: a gateway
delivery attempt, or the commit of a trade transition's state updates
(trade count, last trade price, realized/unrealized PnL, sides). -/
inductive EngineEvent
  | send (s : Signal)
  | commitTrade (side : String)
  deriving DecidableEq, Repr

/-- Modelled from the spec: `SymbolInfoManager.update_realized_pnl` of
the missing `src/common/symbol_info.py` — "realize the PnL": fold the
current unrealized PnL into `realized_pnl`. -/
def update_realized_pnl (s : SymbolInfo) : SymbolInfo :=
  { s with realized_pnl := s.realized_pnl + s.unrealized_pnl }

/-- Modelled from the spec: `SymbolInfoManager.update_is_blocked` of the
missing `src/common/symbol_info.py` outside the take-profit path is "a
pluggable risk-policy capability" (spec §9); the model takes the policy
as a parameter and keeps `is_blocked` monotonic (spec §3: once true,
never reset within a run). -/
def update_is_blocked (policy : SymbolInfo → Bool) (s : SymbolInfo) : SymbolInfo :=
  { s with is_blocked := s.is_blocked || policy s }

/-- Source `TradingEngine.evaluate_trade`, one evaluation of one symbol.  The
guard order, branch structure, manager-update order and gateway sends
are direct from the source.  For the missing callees: `priceChanged`,
`newPrice`, `prevPrice` stand for `price_tracker.price_changed` /
`current_price` / `previous_price(symbol)` (the source applies
`or 0.0` to the latter); `U` is the unspecified formula of
`update_unrealized_pnl`; `policy` is the pluggable rule of
`update_is_blocked`, which — modelled from the spec's take-profit rule —
sets `is_blocked = true` in the take-profit branch; the gateway call is
recorded as a trace event and nothing depends on its result (spec §7:
failures are logged, not raised, never retried or inspected).  Returns
the updated symbol state and the event trace in program order. -/
def evaluate_trade (U : SymbolInfo → ℚ) (policy : SymbolInfo → Bool)
    (priceChanged : Bool) (newPrice : ℚ) (prevPrice : Option ℚ)
    (info0 : SymbolInfo) : SymbolInfo × List EngineEvent :=
  if !priceChanged then (info0, [])
  else
    let old_price := prevPrice.getD 0
    let info := { info0 with current_price := newPrice }
    if info.unrealized_pnl ≥ 2 then
      let info := update_realized_pnl info
      let info := { info with unrealized_pnl := 0 }
      let info := { info with is_blocked := true }
      (info, [])
    else if !info.is_blocked then
      if newPrice > old_price ∧ old_price ≠ 0 then
        if info.last_trade_side ≠ "buy" ∧ info.expected_trade_side = "buy" then
          let sig : Signal :=
            { action := "buy", sentiment := some "bullish", quantity := some info.trade_quantity }
          let info := update_realized_pnl info
          let info := { info with trade_count := info.trade_count + 1 }
          let info := { info with last_trade_price := newPrice }
          let info := { info with unrealized_pnl := U info }
          let info := { info with last_trade_side := "buy" }
          let info := { info with expected_trade_side := "sell" }
          let info := update_is_blocked policy info
          let evs := [EngineEvent.send sig, EngineEvent.commitTrade "buy"]
          if info.is_blocked then
            (info, evs ++ [EngineEvent.send { action := "exit", sentiment := none, quantity := none }])
          else (info, evs)
        else
          let info := { info with unrealized_pnl := U info }
          let info := { info with last_trade_side := "buy" }
          (info, [])
      else if newPrice < old_price ∧ old_price ≠ 0 then
        let info := update_is_blocked policy info
        if info.last_trade_side ≠ "sell" ∧ info.expected_trade_side = "sell" then
          let sig : Signal :=
            { action := "sell", sentiment := some "bearish", quantity := some info.trade_quantity }
          let info := update_realized_pnl info
          let info := { info with trade_count := info.trade_count + 1 }
          let info := { info with last_trade_price := newPrice }
          let info := { info with unrealized_pnl := U info }
          let info := { info with last_trade_side := "sell" }
          let info := { info with expected_trade_side := "buy" }
          let info := update_is_blocked policy info
          let evs := [EngineEvent.send sig, EngineEvent.commitTrade "sell"]
          if info.is_blocked then
            (info, evs ++ [EngineEvent.send { action := "exit", sentiment := none, quantity := none }])
          else (info, evs)
        else
          let info := { info with unrealized_pnl := U info }
          let info := { info with last_trade_side := "sell" }
          (info, [])
      else (info, [])
    else (info, [])

/-- Modelled from the spec: `FilePriceTracker` of the missing
`src/common/price_tracker.py`, per symbol — the last polled price and
the one before it. -/
structure PriceTracker where
  current : Option ℚ
  previous : Option ℚ
  deriving DecidableEq, Repr

/-- Modelled from the spec: `FilePriceTracker.poll` shifts in the newly
read price for the symbol. -/
def PriceTracker.poll (t : PriceTracker) (p : ℚ) : PriceTracker :=
  { current := some p, previous := t.current }

/-- Modelled from the spec: `price_changed(symbol)` — the newly polled
price differs from the previous one. -/
def PriceTracker.price_changed (t : PriceTracker) : Bool :=
  t.current ≠ t.previous

/-- One iteration of the `TradingEngine.run` loop for one symbol: poll
the price tracker, then skip the symbol when `info.is_blocked`
(`continue`), else call `evaluate_trade`. -/
def runStep (U : SymbolInfo → ℚ) (policy : SymbolInfo → Bool)
    (s : PriceTracker × SymbolInfo) (p : ℚ) :
    (PriceTracker × SymbolInfo) × List EngineEvent :=
  let t := s.1.poll p
  if s.2.is_blocked then ((t, s.2), [])
  else
    let r := evaluate_trade U policy t.price_changed (t.current.getD 0) t.previous s.2
    ((t, r.1), r.2)

/-- Source `TradingEngine.run` over a finite sequence of polled prices for one
symbol, concatenating every emitted event in order. -/
def runEngine (U : SymbolInfo → ℚ) (policy : SymbolInfo → Bool)
    (s : PriceTracker × SymbolInfo) :
    List ℚ → (PriceTracker × SymbolInfo) × List EngineEvent
  | [] => (s, [])
  | p :: ps =>
    let r := runStep U policy s p
    let rest := runEngine U policy r.1 ps
    (rest.1, r.2 ++ rest.2)

/-- A fresh symbol's state (spec §3/§8: `expected_trade_side` starts at
BUY, nothing traded yet, not blocked). -/
def initialInfo : SymbolInfo :=
  { realized_pnl := 0, unrealized_pnl := 0, is_blocked := false,
    last_trade_side := "none", expected_trade_side := "buy",
    trade_count := 0, last_trade_price := 0, current_price := 0,
    trade_quantity := 1 }

/-- A tracker that has not polled anything yet. -/
def initialTracker : PriceTracker := { current := none, previous := none }

/-- Modelled from the spec: one concrete instance of the unspecified
`update_unrealized_pnl` formula — mark to market against the last trade
price. -/
def markToMarket (s : SymbolInfo) : ℚ := s.current_price - s.last_trade_price

/-- Modelled from the spec: the trivial pluggable risk policy (never
blocks), leaving the take-profit rule as the only blocking rule — the
only policy the spec specifies with certainty. -/
def noPolicy (_ : SymbolInfo) : Bool := false

/-- The signals delivered to the gateway, extracted from a trace. -/
def sentSignals (evs : List EngineEvent) : List Signal :=
  evs.filterMap (fun e => match e with | .send s => some s | .commitTrade _ => none)

/-- How many EXIT signals a trace delivers. -/
def exitCount (evs : List EngineEvent) : ℕ :=
  (sentSignals evs).countP (fun s => s.action = "exit")

/-! ## Basic lemmas on the bounded deque and the series -/

lemma BoundedDeque.push_length {α : Type} (d : BoundedDeque α) (v : α) :
    (d.push v).data.length = min (d.data.length + 1) d.cap := by
  show (if (d.data ++ [v]).length ≤ d.cap then d.data ++ [v]
    else (d.data ++ [v]).drop ((d.data ++ [v]).length - d.cap)).length = _
  split_ifs with h <;> simp at h ⊢ <;> omega

lemma BoundedDeque.push_data {α : Type} (d : BoundedDeque α) (v : α) :
    (d.push v).data = if d.data.length + 1 ≤ d.cap then d.data ++ [v]
      else (d.data ++ [v]).drop (d.data.length + 1 - d.cap) := by
  show (if (d.data ++ [v]).length ≤ d.cap then d.data ++ [v]
    else (d.data ++ [v]).drop ((d.data ++ [v]).length - d.cap)) = _
  rw [List.length_append, List.length_singleton]

lemma updates_values_cap (m n : ℕ) :
    ((IndicatorSeries.mk0 m).updates n).values.cap = 200 := by
  induction n with
  | zero => rfl
  | succ k ih =>
    show ((((IndicatorSeries.mk0 m).updates k).values.push (k : ℚ)).cap) = 200
    rw [show ∀ d : BoundedDeque ℚ, ∀ v, (d.push v).cap = d.cap from fun _ _ => rfl, ih]

lemma updates_values_data (m n : ℕ) :
    ((IndicatorSeries.mk0 m).updates n).values.data
      = ((List.range n).map (fun i : ℕ => (i : ℚ))).drop (n - 200) := by
  induction n with
  | zero => rfl
  | succ k ih =>
    have hcap := updates_values_cap m k
    have hlen : ((IndicatorSeries.mk0 m).updates k).values.data.length = min k 200 := by
      rw [ih, List.length_drop, List.length_map, List.length_range]; omega
    show ((((IndicatorSeries.mk0 m).updates k).values.push (k : ℚ)).data) = _
    rw [BoundedDeque.push_data, hcap, hlen, ih, List.range_succ, List.map_append]
    rcases le_or_lt (k + 1) 200 with h | h
    · rw [if_pos (by omega)]
      rw [show k - 200 = 0 from by omega, show k + 1 - 200 = 0 from by omega]
      simp
    · rw [if_neg (by omega)]
      rw [show min k 200 + 1 - 200 = 1 from by omega]
      rw [List.drop_append_of_le_length
        (by rw [List.length_drop, List.length_map, List.length_range]; omega)]
      rw [List.drop_append_of_le_length
        (by rw [List.length_map, List.length_range]; omega)]
      rw [List.drop_drop, show k - 200 + 1 = k + 1 - 200 from by omega]
      rfl

lemma updates_values_length (m n : ℕ) :
    ((IndicatorSeries.mk0 m).updates n).values.data.length = min n 200 := by
  rw [updates_values_data, List.length_drop, List.length_map, List.length_range]; omega

/-! ## Theorems on the indicator series -/

/-- C6 fails on the code: `Indicator` builds each series as
`IndicatorSeries(maxlen=2048)`, but the `values`/`timestamps` default
factories hard-code `deque(maxlen=200)` and ignore the `maxlen` field.
Concretely: the `maxlen` field of such a series is 2048, yet after `n`
updates only `min n 200` entries are retained; after 2049 updates
(values `0 … 2048`) `last_n 2048` returns just 200 values — not the
2048 most recent — and the oldest value still retrievable is 1849
(everything appended before it, including values well inside the claimed
2048-window, is gone). -/
theorem indicator_series_capacity_bug :
    (IndicatorSeries.mk0 2048).maxlen = 2048 ∧
    Indicator.mk0.price.maxlen = 2048 ∧
    (∀ n : ℕ, (((IndicatorSeries.mk0 2048).updates n).values.data.length) = min n 200) ∧
    (((IndicatorSeries.mk0 2048).updates 2049).last_n 2048).length = 200 ∧
    ((IndicatorSeries.mk0 2048).updates 2049).values.data.head? = some ((1849 : ℕ) : ℚ) := by
  refine ⟨rfl, rfl, updates_values_length 2048, ?_, ?_⟩
  · unfold IndicatorSeries.last_n
    rw [if_neg (by norm_num)]
    rw [List.length_drop, updates_values_length]
    omega
  · rw [updates_values_data, show (2049 : ℕ) - 200 = 1849 from by norm_num]
    rw [List.head?_drop, List.getElem?_map, List.getElem?_range (by norm_num)]
    rfl

/-- C10: `prev(n)` returns `None` exactly when `n ≤ 0` or `n` exceeds the
number of stored values; for `1 ≤ n ≤ len` it returns the `n`-th most
recent value (index `n-1` of the reversed list), so `prev(1)` is the
latest appended value — the same value `current()` returns on any
non-empty series. -/
theorem prev_spec (s : IndicatorSeries) (n : ℤ) :
    (s.prev n = none ↔ n ≤ 0 ∨ n > (s.values.data.length : ℤ)) ∧
    (0 < n → n ≤ (s.values.data.length : ℤ) →
      s.prev n = s.values.data.reverse.get? (n.toNat - 1)) ∧
    (s.values.data ≠ [] → s.prev 1 = s.current) := by
  unfold IndicatorSeries.prev IndicatorSeries.current
  refine ⟨?_, ?_, ?_⟩
  · constructor
    · intro h
      by_contra hc
      push_neg at hc
      rw [if_neg (by push_neg; exact hc)] at h
      have h1 : 0 < n := hc.1
      have h2 : n ≤ (s.values.data.length : ℤ) := hc.2
      have hlt : s.values.data.length - n.toNat < s.values.data.length := by omega
      rw [List.get?_eq_getElem?, List.getElem?_eq_getElem hlt] at h
      simp at h
    · intro h; rw [if_pos h]
  · intro h1 h2
    rw [if_neg (by push_neg; exact ⟨h1, h2⟩)]
    rw [List.get?_reverse (by omega)]
    congr 1
    omega
  · intro hne
    have hlen : 0 < s.values.data.length := List.length_pos.mpr hne
    rw [if_neg (by push_neg; constructor <;> omega)]
    rw [List.get?_eq_getElem?, List.getLast?_eq_getElem?]
    rfl

/-- Witness for C10 on the concrete series holding `[3, 7]`. -/
theorem prev_spec_witness :
    (((IndicatorSeries.mk0 2048).update 3 0).update 7 1).prev 2
        = (((IndicatorSeries.mk0 2048).update 3 0).update 7 1).values.data.reverse.get?
            ((2 : ℤ).toNat - 1) ∧
    (((IndicatorSeries.mk0 2048).update 3 0).update 7 1).prev 1
        = (((IndicatorSeries.mk0 2048).update 3 0).update 7 1).current := by
  have h := prev_spec (((IndicatorSeries.mk0 2048).update 3 0).update 7 1) 2
  exact ⟨h.2.1 (by decide) (by decide), h.2.2 (by decide)⟩

/-! ## Theorems on the trend classifiers -/

/-- C7: `trend_of` is a pure function of `(sma20, ema20, ema9)` (the
`price` field is ignored); it returns DOWN exactly when
`sma20 > ema20 > ema9`, UP exactly when `sma20 < ema20 < ema9`, and
NEUTRAL (`none`) in every other case including ties; in particular
`(sma20, ema20, ema9) = (10, 11, 12)` maps to UP, `(12, 11, 10)` to
DOWN, and `(11, 11, 11)` to NEUTRAL. -/
theorem trend_of_spec (rec : Rec) :
    (∀ p : ℚ, trend_of { rec with price := p } = trend_of rec) ∧
    (trend_of rec = some "DOWN" ↔ rec.sma20 > rec.ema20 ∧ rec.ema20 > rec.ema9) ∧
    (trend_of rec = some "UP" ↔ rec.sma20 < rec.ema20 ∧ rec.ema20 < rec.ema9) ∧
    (trend_of rec = none ↔
      ¬(rec.sma20 > rec.ema20 ∧ rec.ema20 > rec.ema9) ∧
      ¬(rec.sma20 < rec.ema20 ∧ rec.ema20 < rec.ema9)) ∧
    trend_of ⟨99, 10, 11, 12⟩ = some "UP" ∧
    trend_of ⟨99, 12, 11, 10⟩ = some "DOWN" ∧
    trend_of ⟨99, 11, 11, 11⟩ = none := by
  have hx : ∀ r : Rec, trend_of r =
      if r.sma20 < r.ema20 ∧ r.ema20 < r.ema9 then some "UP"
      else if r.ema20 < r.sma20 ∧ r.ema9 < r.ema20 then some "DOWN"
      else none := by
    intro r
    simp [trend_of, is_uptrend, is_downtrend, Bool.and_eq_true, decide_eq_true_eq]
  refine ⟨?_, ?_, ?_, ?_, by decide, by decide, by decide⟩
  · intro p; rw [hx, hx]
  · rw [hx rec]
    split_ifs with h1 h2
    · constructor
      · intro h; simp at h
      · intro h; exact absurd h1.1 (not_lt.mpr h.1.le)
    · constructor
      · intro _; exact ⟨h2.1, h2.2⟩
      · intro _; rfl
    · constructor
      · intro h; simp at h
      · intro h; exact absurd ⟨h.1, h.2⟩ h2
  · rw [hx rec]
    split_ifs with h1 h2
    · constructor
      · intro _; exact h1
      · intro _; rfl
    · constructor
      · intro h; simp at h
      · intro h; exact absurd h h1
    · constructor
      · intro h; simp at h
      · intro h; exact absurd h h1
  · rw [hx rec]
    split_ifs with h1 h2
    · constructor
      · intro h; simp at h
      · intro h; exact absurd h1 h.2
    · constructor
      · intro h; simp at h
      · intro h; exact absurd ⟨h2.1, h2.2⟩ h.1
    · constructor
      · intro _; exact ⟨fun h => h2 ⟨h.1, h.2⟩, fun h => h1 h⟩
      · intro _; rfl

/-! ## Theorems on the file tailer -/

lemma lineStep_sym (sym : String) (st : Option ℕ × List Alert) (line : Option Alert)
    (h : ∀ a ∈ st.2, a.symbol = sym) :
    ∀ a ∈ (lineStep sym st line).2, a.symbol = sym := by
  cases line with
  | none => exact h
  | some alert =>
    by_cases hs : alert.symbol = sym
    · by_cases hf : tsFresh st.1 alert.ts
      · simp only [lineStep, if_pos hs, if_pos hf]
        intro a ha
        rcases List.mem_append.mp ha with h1 | h2
        · exact h a h1
        · rw [List.mem_singleton.mp h2]; exact hs
      · simp only [lineStep, if_pos hs, if_neg hf]; exact h
    · simp only [lineStep, if_neg hs]; exact h

lemma foldl_lineStep_sym (sym : String) (lines : List (Option Alert)) :
    ∀ st : Option ℕ × List Alert, (∀ a ∈ st.2, a.symbol = sym) →
      ∀ a ∈ (lines.foldl (lineStep sym) st).2, a.symbol = sym := by
  induction lines with
  | nil => intro st h; exact h
  | cons l ls ih =>
    intro st h
    rw [List.foldl_cons]
    exact ih _ (lineStep_sym sym st l h)

lemma lineStep_skip (sym : String) (st : Option ℕ × List Alert) (line : Option Alert)
    (h : keepsSymbol sym line = false) : lineStep sym st line = st := by
  cases line with
  | none => rfl
  | some a =>
    have : ¬(a.symbol = sym) := by simpa [keepsSymbol] using h
    simp only [lineStep, if_neg this]

lemma pollTick_eq (sym : String) (file : List (Option Alert)) (st : TailerState) :
    pollTick sym file st =
      if file.length < st.pos then
        (if 0 < file.length then
          ({ pos := file.length, last_ts := (readLines sym st.last_ts file).1 },
            (readLines sym st.last_ts file).2)
         else ({ pos := 0, last_ts := st.last_ts }, []))
      else if st.pos < file.length then
        ({ pos := file.length, last_ts := (readLines sym st.last_ts (file.drop st.pos)).1 },
          (readLines sym st.last_ts (file.drop st.pos)).2)
      else (st, []) := by
  unfold pollTick
  by_cases h1 : file.length < st.pos
  · by_cases h2 : 0 < file.length
    · simp [h1, h2, List.drop_zero]
    · simp [h1, h2]
  · by_cases h2 : st.pos < file.length
    · simp [h1, h2]
    · simp [h1, h2]

lemma foldl_lineStep_filter (sym : String) (lines : List (Option Alert)) :
    ∀ st : Option ℕ × List Alert,
      lines.foldl (lineStep sym) st
        = (lines.filter (keepsSymbol sym)).foldl (lineStep sym) st := by
  induction lines with
  | nil => intro st; rfl
  | cons l ls ih =>
    intro st
    by_cases h : keepsSymbol sym l
    · rw [List.foldl_cons, List.filter_cons, if_pos h, List.foldl_cons, ih]
    · rw [List.foldl_cons, List.filter_cons, if_neg h,
        lineStep_skip sym st l (by simpa using h), ih]

/-- C4: inside one read step, a parsed record of the tailer's symbol is
emitted if and only if its timestamp is strictly greater than the dedup
watermark (or no record has been emitted yet); a record with timestamp
`≤` the watermark leaves state and output untouched, and on emission the
watermark becomes the emitted record's timestamp. -/
theorem tailer_dedup_spec (sym : String) (w : Option ℕ) (acc : List Alert) (a : Alert)
    (hsym : a.symbol = sym) :
    (w = none → lineStep sym (w, acc) (some a) = (some a.ts, acc ++ [a])) ∧
    (∀ t, w = some t → a.ts > t → lineStep sym (w, acc) (some a) = (some a.ts, acc ++ [a])) ∧
    (∀ t, w = some t → a.ts ≤ t → lineStep sym (w, acc) (some a) = (w, acc)) := by
  refine ⟨?_, ?_, ?_⟩
  · intro h; subst h; simp [lineStep, hsym, tsFresh]
  · intro t h hgt; subst h; simp [lineStep, hsym, tsFresh, hgt]
  · intro t h hle; subst h; simp [lineStep, hsym, tsFresh, Nat.not_lt.mpr hle]

/-- Witness for C4: a record at timestamp 10 against watermark 5 is
emitted and advances the watermark; against watermark 10 it is dropped. -/
theorem tailer_dedup_spec_witness :
    lineStep "AAPL" (some 5, []) (some ⟨"AAPL", ⟨1, 2, 3, 4⟩, 10, 1⟩)
        = (some 10, [⟨"AAPL", ⟨1, 2, 3, 4⟩, 10, 1⟩]) ∧
    lineStep "AAPL" (some 10, []) (some ⟨"AAPL", ⟨1, 2, 3, 4⟩, 10, 1⟩)
        = (some 10, []) := by
  constructor
  · exact (tailer_dedup_spec "AAPL" (some 5) [] ⟨"AAPL", ⟨1, 2, 3, 4⟩, 10, 1⟩ rfl).2.1
      5 rfl (by norm_num)
  · exact (tailer_dedup_spec "AAPL" (some 10) [] ⟨"AAPL", ⟨1, 2, 3, 4⟩, 10, 1⟩ rfl).2.2
      10 rfl (by norm_num)

/-- C5: when the source's current size is strictly below the cursor, the
poll tick resets the cursor to 0 and therefore behaves exactly like a
tick started at cursor 0: the read step replays the file's entire
current content from offset 0, and the cursor ends at the current end of
the file. -/
theorem truncation_replays (sym : String) (file : List (Option Alert)) (st : TailerState)
    (h : file.length < st.pos) :
    pollTick sym file st = pollTick sym file { st with pos := 0 } ∧
    (pollTick sym file st).1.pos = file.length ∧
    (pollTick sym file st).2
      = if 0 < file.length then (readLines sym st.last_ts file).2 else [] := by
  have e1 : pollTick sym file st = pollTick sym file { st with pos := 0 } := by
    by_cases h0 : 0 < file.length
    · simp [pollTick_eq, h, h0, List.drop_zero]
    · simp [pollTick_eq, h, h0]
  refine ⟨e1, ?_, ?_⟩
  · by_cases h0 : 0 < file.length
    · simp [pollTick_eq, h, h0]
    · simp [pollTick_eq, h, h0]
      omega
  · by_cases h0 : 0 < file.length
    · simp [pollTick_eq, h, h0]
    · simp [pollTick_eq, h, h0]

/-- Witness for C5: a 2-line file against a cursor at 5 replays both
lines (one emitted record) and leaves the cursor at 2. -/
theorem truncation_replays_witness :
    pollTick "AAPL" [some ⟨"AAPL", ⟨1, 2, 3, 4⟩, 10, 1⟩, none] ⟨5, none⟩
      = pollTick "AAPL" [some ⟨"AAPL", ⟨1, 2, 3, 4⟩, 10, 1⟩, none] ⟨0, none⟩ ∧
    (pollTick "AAPL" [some ⟨"AAPL", ⟨1, 2, 3, 4⟩, 10, 1⟩, none] ⟨5, none⟩).1.pos = 2 := by
  have h := truncation_replays "AAPL" [some ⟨"AAPL", ⟨1, 2, 3, 4⟩, 10, 1⟩, none] ⟨5, none⟩
    (by norm_num)
  exact ⟨h.1, h.2.1⟩

/-- C9: every record a poll tick emits carries the tailer's configured
symbol; lines that do not parse, or parse to a record of another symbol,
contribute nothing — removing them from the read lines changes neither
the emitted records nor the dedup watermark — while the cursor still
advances to the end of the file whenever it was within the file. -/
theorem tailer_symbol_invariant (sym : String) (file : List (Option Alert))
    (st : TailerState) (w : Option ℕ) (lines : List (Option Alert)) :
    (∀ a ∈ (pollTick sym file st).2, a.symbol = sym) ∧
    readLines sym w lines = readLines sym w (lines.filter (keepsSymbol sym)) ∧
    (st.pos ≤ file.length → (pollTick sym file st).1.pos = file.length) := by
  refine ⟨?_, foldl_lineStep_filter sym lines (w, []), ?_⟩
  · intro a ha
    rw [pollTick_eq] at ha
    unfold readLines at ha
    split_ifs at ha with h1 h2 h3
    · exact foldl_lineStep_sym sym _ _ (by intro x hx; cases hx) a ha
    · cases ha
    · exact foldl_lineStep_sym sym _ _ (by intro x hx; cases hx) a ha
    · cases ha
  · intro hle
    rw [pollTick_eq, if_neg (by omega)]
    by_cases h2 : st.pos < file.length
    · rw [if_pos h2]
    · rw [if_neg h2]
      simp
      omega

/-- Witness for C9's cursor clause: a tick whose cursor sits inside the
file advances it to the end. -/
theorem tailer_symbol_invariant_witness :
    (pollTick "AAPL" [none, some ⟨"MSFT", ⟨1, 2, 3, 4⟩, 10, 1⟩] ⟨1, none⟩).1.pos = 2 ∧
    (pollTick "AAPL" [none, some ⟨"MSFT", ⟨1, 2, 3, 4⟩, 10, 1⟩] ⟨1, none⟩).2 = [] := by
  constructor
  · exact (tailer_symbol_invariant "AAPL" [none, some ⟨"MSFT", ⟨1, 2, 3, 4⟩, 10, 1⟩]
      ⟨1, none⟩ none []).2.2 (by norm_num)
  · decide

/-- C8: the two trend strategies are not equivalent: at
`price = 5, sma20 = 10, ema20 = 11, ema9 = 12` we have
`sma20 < ema20 < ema9` and `price < ema9`, `trend_of` classifies UP
while `derive_trend` classifies neutral. -/
theorem trend_strategies_disagree :
    ∃ price sma20 ema20 ema9 : ℚ,
      sma20 < ema20 ∧ ema20 < ema9 ∧ price < ema9 ∧
      trend_of ⟨price, sma20, ema20, ema9⟩ = some "UP" ∧
      derive_trend price ema9 ema20 sma20 = "neutral" :=
  ⟨5, 10, 11, 12, by norm_num, by norm_num, by norm_num, by decide, by decide⟩

/-! ## Theorems on the trading engine -/

/-- C1: on an evaluation with a price change, if `unrealized_pnl ≥ 2` at
the start of the evaluation then `evaluate_trade` folds the unrealized
PnL into `realized_pnl`, resets `unrealized_pnl` to 0 and sets
`is_blocked` — and, the check coming before the directional logic, the
evaluation emits no event at all (in particular no BUY or SELL), for any
direction of the price move. -/
theorem take_profit_halt (U : SymbolInfo → ℚ) (policy : SymbolInfo → Bool)
    (newPrice : ℚ) (prevPrice : Option ℚ) (info : SymbolInfo)
    (h : info.unrealized_pnl ≥ 2) :
    (evaluate_trade U policy true newPrice prevPrice info).1.realized_pnl
        = info.realized_pnl + info.unrealized_pnl ∧
    (evaluate_trade U policy true newPrice prevPrice info).1.unrealized_pnl = 0 ∧
    (evaluate_trade U policy true newPrice prevPrice info).1.is_blocked = true ∧
    (evaluate_trade U policy true newPrice prevPrice info).2 = [] := by
  simp [evaluate_trade, update_realized_pnl, h]

/-- Witness for C1 at `unrealized_pnl = 3`, `realized_pnl = 1`. -/
theorem take_profit_halt_witness :
    ({ initialInfo with unrealized_pnl := 3, realized_pnl := 1 } : SymbolInfo).unrealized_pnl
        ≥ 2 ∧
    (evaluate_trade markToMarket noPolicy true 5 (some 4)
        { initialInfo with unrealized_pnl := 3, realized_pnl := 1 }).1.realized_pnl = 1 + 3 ∧
    (evaluate_trade markToMarket noPolicy true 5 (some 4)
        { initialInfo with unrealized_pnl := 3, realized_pnl := 1 }).1.is_blocked = true ∧
    (evaluate_trade markToMarket noPolicy true 5 (some 4)
        { initialInfo with unrealized_pnl := 3, realized_pnl := 1 }).2 = [] := by
  have h := take_profit_halt markToMarket noPolicy 5 (some 4)
    { initialInfo with unrealized_pnl := 3, realized_pnl := 1 } (by decide)
  exact ⟨by decide, h.1, h.2.2.1, h.2.2.2⟩

/-- C2 fails on the code: in a run whose prices are
`[100, 101, 104, 105, 106]` (with the spec-modelled mark-to-market
unrealized-PnL formula and the trivial risk policy), `unrealized_pnl`
reaches 3 ≥ 2 after the third poll, the fourth poll's take-profit branch
blocks the symbol — and the whole run delivers zero EXIT signals: the
take-profit branch returns without sending anything, and the blocked
symbol is skipped afterwards. -/
theorem take_profit_no_exit_cex :
    (runEngine markToMarket noPolicy (initialTracker, initialInfo)
        [100, 101, 104]).1.2.unrealized_pnl ≥ 2 ∧
    (runEngine markToMarket noPolicy (initialTracker, initialInfo)
        [100, 101, 104, 105, 106]).1.2.is_blocked = true ∧
    exitCount (runEngine markToMarket noPolicy (initialTracker, initialInfo)
        [100, 101, 104, 105, 106]).2 = 0 := by
  refine ⟨?_, ?_, ?_⟩ <;>
    norm_num +decide [runEngine, runStep, evaluate_trade, markToMarket, noPolicy,
      update_realized_pnl, update_is_blocked, initialTracker, initialInfo,
      PriceTracker.poll, PriceTracker.price_changed, Option.getD,
      exitCount, sentSignals]

/-- C2 amended: once `unrealized_pnl` reaches 2, the take-profit branch
blocks the symbol while emitting no signal at all (no EXIT at the moment
of blocking), and once `is_blocked` is true the control loop permanently
skips the symbol: no BUY, SELL or EXIT is emitted for it for the
remainder of the run, however prices move, and its state no longer
changes. -/
theorem blocked_symbol_halts_silently (U : SymbolInfo → ℚ) (policy : SymbolInfo → Bool) :
    (∀ (newPrice : ℚ) (prevPrice : Option ℚ) (info : SymbolInfo),
        info.unrealized_pnl ≥ 2 →
        (evaluate_trade U policy true newPrice prevPrice info).2 = [] ∧
        (evaluate_trade U policy true newPrice prevPrice info).1.is_blocked = true) ∧
    (∀ (t : PriceTracker) (info : SymbolInfo) (ps : List ℚ),
        info.is_blocked = true →
        (runEngine U policy (t, info) ps).2 = [] ∧
        (runEngine U policy (t, info) ps).1.2 = info) := by
  constructor
  · intro np pp info h
    constructor
    · simp [evaluate_trade, h]
    · simp [evaluate_trade, h]
  · intro t info ps h
    induction ps generalizing t with
    | nil => exact ⟨rfl, rfl⟩
    | cons p ps ih =>
      have step : runStep U policy (t, info) p = ((t.poll p, info), []) := by
        simp [runStep, h]
      simp only [runEngine, step]
      exact ⟨by simp [(ih (t.poll p)).1], (ih (t.poll p)).2⟩

/-- Witness for C2's amended statement: a take-profit evaluation emits
nothing, and a run over a blocked symbol emits nothing. -/
theorem blocked_symbol_halts_silently_witness :
    (evaluate_trade markToMarket noPolicy true 7 (some 6)
        { initialInfo with unrealized_pnl := 2 }).2 = [] ∧
    (runEngine markToMarket noPolicy
        (initialTracker, { initialInfo with is_blocked := true }) [1, 2, 3]).2 = [] := by
  exact ⟨((blocked_symbol_halts_silently markToMarket noPolicy).1 7 (some 6)
      { initialInfo with unrealized_pnl := 2 } (by decide)).1,
    ((blocked_symbol_halts_silently markToMarket noPolicy).2 initialTracker
      { initialInfo with is_blocked := true } [1, 2, 3] (by decide)).1⟩

/-- C3 fails on the code: in the first BUY transition of a run the trace
is `[send buy, commit]` — the gateway delivery attempt is the first
event, before the state updates are committed, not after. -/
theorem send_before_commit_cex :
    (evaluate_trade markToMarket noPolicy true 101 (some 100)
        { initialInfo with current_price := 100 }).2
      = [EngineEvent.send { action := "buy", sentiment := some "bullish", quantity := some 1 },
         EngineEvent.commitTrade "buy"] ∧
    (evaluate_trade markToMarket noPolicy true 101 (some 100)
        { initialInfo with current_price := 100 }).1.trade_count = 1 := by
  refine ⟨?_, ?_⟩ <;>
    norm_num +decide [evaluate_trade, markToMarket, noPolicy, update_realized_pnl,
      update_is_blocked, initialInfo, Option.getD]

/-- C3 amended: whenever a trade transition executes, the gateway
delivery call is attempted first and the state updates (trade count,
last trade price, realized PnL, last/expected trade side) are committed
immediately after it, unconditionally — the delivery's outcome (logged,
never raised, per the spec's gateway model) can neither roll them back
nor prevent them. -/
theorem delivery_then_commit (U : SymbolInfo → ℚ) (policy : SymbolInfo → Bool)
    (np : ℚ) (pp : Option ℚ) (info : SymbolInfo) :
    (info.unrealized_pnl < 2 → info.is_blocked = false →
      np > pp.getD 0 → pp.getD 0 ≠ 0 →
      info.last_trade_side ≠ "buy" → info.expected_trade_side = "buy" →
      ∃ rest,
        (evaluate_trade U policy true np pp info).2
          = EngineEvent.send
              { action := "buy", sentiment := some "bullish",
                quantity := some info.trade_quantity }
            :: EngineEvent.commitTrade "buy" :: rest ∧
        (evaluate_trade U policy true np pp info).1.trade_count = info.trade_count + 1 ∧
        (evaluate_trade U policy true np pp info).1.last_trade_price = np ∧
        (evaluate_trade U policy true np pp info).1.realized_pnl
          = info.realized_pnl + info.unrealized_pnl ∧
        (evaluate_trade U policy true np pp info).1.last_trade_side = "buy" ∧
        (evaluate_trade U policy true np pp info).1.expected_trade_side = "sell") ∧
    (info.unrealized_pnl < 2 → info.is_blocked = false →
      np < pp.getD 0 → pp.getD 0 ≠ 0 →
      info.last_trade_side ≠ "sell" → info.expected_trade_side = "sell" →
      ∃ rest,
        (evaluate_trade U policy true np pp info).2
          = EngineEvent.send
              { action := "sell", sentiment := some "bearish",
                quantity := some info.trade_quantity }
            :: EngineEvent.commitTrade "sell" :: rest ∧
        (evaluate_trade U policy true np pp info).1.trade_count = info.trade_count + 1 ∧
        (evaluate_trade U policy true np pp info).1.last_trade_price = np ∧
        (evaluate_trade U policy true np pp info).1.realized_pnl
          = info.realized_pnl + info.unrealized_pnl ∧
        (evaluate_trade U policy true np pp info).1.last_trade_side = "sell" ∧
        (evaluate_trade U policy true np pp info).1.expected_trade_side = "buy") := by
  constructor
  · intro hpnl hnb hup hnz hls hes
    simp only [evaluate_trade, update_realized_pnl, update_is_blocked,
      Bool.not_true, Bool.false_eq_true, if_false, not_le.mpr hpnl, hnb,
      Bool.not_false, if_true, if_pos (And.intro hup hnz), if_pos (And.intro hls hes)]
    split_ifs with hb
    · exact ⟨_, rfl, rfl, rfl, rfl, rfl, rfl⟩
    · exact ⟨[], rfl, rfl, rfl, rfl, rfl, rfl⟩
  · intro hpnl hnb hdn hnz hls hes
    have hnup : ¬(np > pp.getD 0 ∧ pp.getD 0 ≠ 0) := fun hc => absurd hdn (not_lt.mpr hc.1.le)
    simp only [evaluate_trade, update_realized_pnl, update_is_blocked,
      Bool.not_true, Bool.false_eq_true, if_false, not_le.mpr hpnl, hnb,
      Bool.not_false, if_true, if_neg hnup, if_pos (And.intro hdn hnz),
      if_pos (And.intro hls hes)]
    split_ifs with hb
    · exact ⟨_, rfl, rfl, rfl, rfl, rfl, rfl⟩
    · exact ⟨[], rfl, rfl, rfl, rfl, rfl, rfl⟩

/-- Witness for C3's amended statement, on the SELL branch: downtick
from 101 after a buy at 101. -/
theorem delivery_then_commit_witness :
    (∃ rest,
      (evaluate_trade markToMarket noPolicy true 99 (some 101)
        { initialInfo with
            last_trade_side := "buy", expected_trade_side := "sell",
            trade_count := 1, last_trade_price := 101, current_price := 101 }).2
      = EngineEvent.send { action := "sell", sentiment := some "bearish", quantity := some 1 }
        :: EngineEvent.commitTrade "sell" :: rest) ∧
    (evaluate_trade markToMarket noPolicy true 99 (some 101)
        { initialInfo with
            last_trade_side := "buy", expected_trade_side := "sell",
            trade_count := 1, last_trade_price := 101, current_price := 101 }).1.trade_count
      = 2 := by
  obtain ⟨rest, h1, h2, -⟩ :=
    (delivery_then_commit markToMarket noPolicy 99 (some 101)
      { initialInfo with
          last_trade_side := "buy", expected_trade_side := "sell",
          trade_count := 1, last_trade_price := 101, current_price := 101 }).2
      (by decide) (by decide) (by decide) (by decide) (by decide) (by decide)
  exact ⟨⟨rest, h1⟩, h2⟩

end GraitBot
